import Mathlib

/-!
Verification development for the WebChat server (`src/main.rs`).

The server keeps a registry `Arc<Mutex<HashMap<String, broadcast::Sender<String>>>>`
mapping room names to tokio broadcast channels of capacity 100.  Each websocket
session (`handle_socket`) looks up or creates its room's channel, subscribes,
broadcasts a join announcement, runs an outbound pump (`recv_task`) and an
inbound pump (`send_task`), and after both stop broadcasts a part announcement
guarded by the room still being registered.

We embed the relevant parts shallowly: the registry as an association list with
fresh numeric channel ids, a broadcast channel as its append-only message log
plus a per-subscriber cursor, the pumps as functions over the sequence of frames
or channel events they consume, and `handle_socket`'s sequential skeleton as an
explicit event trace that records lock acquisition/release and channel sends.
-/

namespace WebChat

/-! ## Wire-level message rendering (main.rs lines 241, 273, 286) -/

/-- `format!("[{}] has joined the room.", username)` (main.rs line 241). -/
def joinAnnounce (username : String) : String :=
  "[" ++ username ++ "] has joined the room."

/-- `format!("[{}] has left the room.", username)` (main.rs line 286). -/
def partAnnounce (username : String) : String :=
  "[" ++ username ++ "] has left the room."

/-- `format!("{}: {}", send_task_username, text)` (main.rs line 273). -/
def chatLine (username text : String) : String :=
  username ++ ": " ++ text

/-! ## Room registry (main.rs lines 56, 65-69, 232-235)

`ChatRooms = Arc<Mutex<HashMap<String, broadcast::Sender<String>>>>`.
We model the `HashMap` as an association list from room name to a numeric
channel id, together with a counter supplying fresh ids; creating a channel
(`broadcast::channel(100).0`) is modelled as allocating the next id. -/

structure Registry where
  rooms : List (String × Nat)
  nextId : Nat
  deriving Repr, DecidableEq

def Registry.empty : Registry := ⟨[], 0⟩

/-- `rooms.get(&name)` on the association list. -/
def lookupRoom (r : Registry) (name : String) : Option Nat :=
  (r.rooms.find? (fun p => p.1 = name)).map (·.2)

/-- `rooms.entry(room.clone()).or_insert_with(|| broadcast::channel(100).0).clone()`
(main.rs line 234): look the name up; if absent, allocate a fresh channel and
insert it; return the (producer handle of the) surviving channel. -/
def getOrCreate (r : Registry) (name : String) : Nat × Registry :=
  match lookupRoom r name with
  | some id => (id, r)
  | none => (r.nextId, ⟨r.rooms ++ [(name, r.nextId)], r.nextId + 1⟩)

/-- `get_rooms_handler` (main.rs lines 65-69): `rooms.keys().cloned().collect()`. -/
def listRooms (r : Registry) : List String :=
  r.rooms.map (·.1)

/-- Number of registry entries carrying a given room name. -/
def countRoom (r : Registry) (name : String) : Nat :=
  (r.rooms.filter (fun p => p.1 = name)).length

/-- Registry well-formedness: the map structure of `HashMap` — at most one
entry per key. -/
def Registry.WF (r : Registry) : Prop :=
  (r.rooms.map (·.1)).Nodup

/-- Fold a sequence of `getOrCreate` calls (one per arriving session),
starting from the startup state `HashMap::new()` (main.rs line 98). -/
def runGetOrCreate (names : List String) : Registry :=
  names.foldl (fun r n => (getOrCreate r n).2) Registry.empty

/-! ## Broadcast channel log and session start (main.rs lines 232-242)

A tokio `broadcast` channel is modelled by the append-only list of messages
ever sent on it; a subscriber handle (`tx.subscribe()`, main.rs line 236) is a
cursor into that list, initialised to the current length — a subscriber sees no
message sent before it subscribed, and reads forward in log order. -/

/-- The global channel store: for each channel id, its message log. -/
structure Sys where
  registry : Registry
  chanLog : Nat → List String

def Sys.empty : Sys := ⟨Registry.empty, fun _ => []⟩

/-- Append one message to channel `cid`'s log (a successful `tx.send`). -/
def Sys.send (s : Sys) (cid : Nat) (m : String) : Sys :=
  ⟨s.registry, fun i => if i = cid then s.chanLog i ++ [m] else s.chanLog i⟩

/-- The start of `handle_socket` (main.rs lines 232-242): get-or-create the
room's channel, subscribe (recording the cursor), then broadcast the join
announcement.  Returns the new state, the channel id and the subscriber's
cursor. -/
def sessionStart (s : Sys) (room username : String) : Sys × Nat × Nat :=
  let (cid, reg) := getOrCreate s.registry room
  let s1 : Sys := ⟨reg, s.chanLog⟩
  let cursor := (s1.chanLog cid).length
  (s1.send cid (joinAnnounce username), cid, cursor)

/-! ## Upgrade handler (main.rs lines 196-218)

`websocket_handler` reads `params.get("token")`; a missing token or a failed
`decode::<Claims>` short-circuits with `StatusCode::UNAUTHORIZED` and never
reaches `ws.on_upgrade(... handle_socket ...)`.  Token decoding
(`jsonwebtoken::decode` with `Validation::default()`, which rejects malformed,
badly signed and expired tokens) is external; it is a parameter returning
`none` on any such failure, exactly as the code collapses every `Err(_)`. -/

structure TokenClaims where
  sub : String
  user_id : Int
  deriving Repr, DecidableEq

inductive UpgradeResult where
  | unauthorizedNoToken
  | unauthorizedInvalid
  | upgraded (c : TokenClaims)
  deriving Repr, DecidableEq

/-- `params.get("token")` on the query-parameter map. -/
def tokenOf (params : List (String × String)) : Option String :=
  (params.find? (fun p => p.1 = "token")).map (·.2)

/-- `websocket_handler` (main.rs lines 196-218) followed, on success, by the
start of `handle_socket` — the only place room side effects happen. -/
def wsRequest (decodeTok : String → Option TokenClaims)
    (params : List (String × String)) (room : String) (s : Sys) :
    UpgradeResult × Sys :=
  match tokenOf params with
  | none => (.unauthorizedNoToken, s)
  | some t =>
    match decodeTok t with
    | none => (.unauthorizedInvalid, s)
    | some c => (.upgraded c, (sessionStart s room c.sub).1)

/-! ## The session's sequential skeleton as an event trace

`handle_socket` is sequential apart from the two pump tasks; we record the
order of its lock operations, channel sends and the pump join point.  Each
send event is tagged with its originating code site (join / chat / part).

Lock extents follow the Rust scoping in the source:
* lines 232-235: the `MutexGuard` lives in the inner block `{ let mut rooms =
  ...lock()...; rooms.entry(...)...clone() }` and is dropped at the block's
  end, before `tx.subscribe()`;
* lines 288-290: in `if let Some(tx) = state.chat_rooms.lock().unwrap().get(&room)
  { let _ = tx.send(part_msg); }` the guard is a temporary in the scrutinee and
  `tx` borrows from it, so the guard lives through the `if let` body and the
  part send happens with the lock held. -/

inductive SendKind where
  | join
  | chat
  | part
  deriving Repr, DecidableEq

inductive Ev where
  | lockAcquire
  | lookupOrInsert (room : String)
  | lockRelease
  | subscribe
  | send (k : SendKind) (m : String)
  | pumpsStopped
  | lookup (room : String)
  deriving Repr, DecidableEq

/-- The event trace of one `handle_socket` run, for a session with the given
room, username, list of chat texts relayed by its inbound pump while
streaming, and whether the room was still registered at teardown
(main.rs lines 232-290). -/
def handleSocketTrace (room username : String) (chats : List String)
    (roomStillThere : Bool) : List Ev :=
  [Ev.lockAcquire, Ev.lookupOrInsert room, Ev.lockRelease,
   Ev.subscribe,
   Ev.send .join (joinAnnounce username)]
  ++ chats.map (fun t => Ev.send .chat (chatLine username t))
  ++ [Ev.pumpsStopped,
      Ev.lockAcquire, Ev.lookup room]
  ++ (if roomStillThere then [Ev.send .part (partAnnounce username)] else [])
  ++ [Ev.lockRelease]

/-- Messages sent while the registry lock is held (lock depth > 0). -/
def sendsUnderLock : List Ev → Nat → List String
  | [], _ => []
  | Ev.lockAcquire :: es, d => sendsUnderLock es (d + 1)
  | Ev.lockRelease :: es, d => sendsUnderLock es (d - 1)
  | Ev.send _ m :: es, d =>
    (if 0 < d then [m] else []) ++ sendsUnderLock es d
  | _ :: es, d => sendsUnderLock es d

/-- Selects a part-announcement send event's message. -/
def isPartSend (e : Ev) : Option String :=
  match e with
  | Ev.send .part m => some m
  | _ => none

/-- The part-announcement send events of a trace. -/
def partSends (es : List Ev) : List String :=
  es.filterMap isPartSend

/-- True of every event except the pumps' join point. -/
def notStop (e : Ev) : Bool :=
  !(e == Ev.pumpsStopped)

/-- The trace before the pumps' join point completes. -/
def beforePumpsStop (es : List Ev) : List Ev :=
  es.takeWhile notStop

/-! ## Outbound pump (`recv_task`, main.rs lines 249-255)

```rust
while let Ok(msg) = rx.recv().await {
    if sender.send(Message::Text(msg)).await.is_err() { break; }
}
```

tokio broadcast semantics for `rx.recv()` with `capacity = 100`
(`broadcast::channel(100)`, main.rs line 234): with the channel's total send
count `len` and the subscriber's cursor `pos`,
* `pos < len` and `len - pos ≤ capacity`: `Ok(msg[pos])`, cursor advances;
* `pos < len` and `len - pos > capacity`: `Err(RecvError::Lagged(_))` — the
  oldest unconsumed messages were overwritten; **the `while let Ok` loop exits**;
* `pos = len`, all senders dropped: `Err(RecvError::Closed)`, loop exits;
* `pos = len`, a sender alive: the recv suspends.

We model a completed run of the pump against the channel's final log: `msgs`
is every message sent on the channel, `closed` says whether all senders were
eventually dropped, and `writeOk i` says whether the transport write of message
`i` succeeds.  The recursion is driven by the remaining distance to the end of
the log. -/

def capacity : Nat := 100

inductive PumpStop where
  | writeFailure
  | channelClosed
  | laggedExit
  | suspended
  deriving Repr, DecidableEq

def recvTaskAux (msgs : List String) (closed : Bool) (writeOk : Nat → Bool) :
    Nat → Nat → PumpStop
  | 0, _ => if closed then .channelClosed else .suspended
  | fuel + 1, pos =>
    if capacity < msgs.length - pos then .laggedExit
    else if writeOk pos then recvTaskAux msgs closed writeOk fuel (pos + 1)
    else .writeFailure

/-- Outcome of the outbound pump started at cursor `pos`. -/
def recvTask (msgs : List String) (closed : Bool) (writeOk : Nat → Bool)
    (pos : Nat) : PumpStop :=
  recvTaskAux msgs closed writeOk (msgs.length - pos) pos

/-- A single `rx.recv().await` seen at channel state (`msgs`, `closed`) from
cursor `pos`: tokio returns the next message while the cursor is within
`capacity` of the head, reports `Lagged` — repositioning the cursor to the
oldest retained message, the later ones having been overwritten — when the
subscriber fell further behind, reports `Closed` at the end of a closed
channel, and otherwise suspends. -/
inductive RecvOutcome where
  | ok (m : String) (newPos : Nat)
  | lagged (missed : Nat) (newPos : Nat)
  | closedNow
  | pending
  deriving Repr, DecidableEq

def recvOnce (msgs : List String) (closed : Bool) (pos : Nat) : RecvOutcome :=
  if h : pos < msgs.length then
    if capacity < msgs.length - pos then
      .lagged (msgs.length - capacity - pos) (msgs.length - capacity)
    else .ok (msgs.get ⟨pos, h⟩) (pos + 1)
  else if closed then .closedNow else .pending

/-! ## Inbound pump (`send_task`, main.rs lines 258-277)

```rust
while let Some(Ok(msg)) = receiver.next().await {
    if let Message::Text(text) = msg {
        sqlx::query("...").bind(user_id).bind(&send_task_username)
            .bind(&send_task_room).bind(&text).execute(&state.db).await.ok();
        let broadcast_msg = format!("{}: {}", send_task_username, text);
        let _ = tx.send(broadcast_msg);
    }
}
```

`frames` is the list of frames the transport delivered before the stream ended
(a `Some(Err(_))` or `None` stops the `while let`; earlier frames are all
processed).  `persistOk` gives the outcome of each persistence attempt; the
code discards it with `.ok()`. -/

inductive WsFrame where
  | text (s : String)
  | nonText
  deriving Repr, DecidableEq

structure PersistRec where
  uid : Int
  username : String
  room : String
  text : String
  deriving Repr, DecidableEq

inductive InEv where
  | persistAttempt (r : PersistRec) (ok : Bool)
  | broadcastChat (m : String)
  deriving Repr, DecidableEq

/-- The ordered events the inbound pump performs: for each text frame, one
persistence attempt (result discarded) immediately followed by one broadcast;
non-text frames are skipped. -/
def sendTaskEvents (uid : Int) (username room : String)
    (persistOk : PersistRec → Bool) (frames : List WsFrame) : List InEv :=
  frames.flatMap (fun f =>
    match f with
    | .text t =>
      let r : PersistRec := ⟨uid, username, room, t⟩
      [InEv.persistAttempt r (persistOk r), InEv.broadcastChat (chatLine username t)]
    | .nonText => [])

/-- Selects a persistence attempt's record. -/
def persistSel (e : InEv) : Option PersistRec :=
  match e with
  | InEv.persistAttempt r _ => some r
  | _ => none

/-- Selects a chat broadcast's message. -/
def chatSel (e : InEv) : Option String :=
  match e with
  | InEv.broadcastChat m => some m
  | _ => none

/-- Selects a frame's text payload. -/
def textSel (f : WsFrame) : Option String :=
  match f with
  | WsFrame.text t => some t
  | WsFrame.nonText => none

/-- The persistence records attempted, in order. -/
def persistsOf (es : List InEv) : List PersistRec :=
  es.filterMap persistSel

/-- The chat messages broadcast, in order. -/
def broadcastsOf (es : List InEv) : List String :=
  es.filterMap chatSel

/-- The text payloads among the delivered frames, in order. -/
def textsOf (frames : List WsFrame) : List String :=
  frames.filterMap textSel

/-! ## Discarded send results (main.rs lines 242, 274, 289)

`broadcast::Sender::send` returns `Err(SendError(msg))` — and drops the
message — when the channel has no active receivers, `Ok(receiver_count)`
otherwise.  All three call sites write `let _ = tx.send(...)`.  We model a
channel as its receiver count plus its log, and a session's sends as a fold
that performs each `tx.send` and discards its result, returning the final
channel and the sequence of messages the session went on to attempt. -/

structure BChan where
  receivers : Nat
  log : List String
  deriving Repr, DecidableEq

/-- `tx.send(m)`: error (message dropped) when no receiver is subscribed. -/
def bsend (c : BChan) (m : String) : BChan × Except String Nat :=
  if c.receivers = 0 then (c, .error m)
  else ({ c with log := c.log ++ [m] }, .ok c.receivers)

/-- The three sends of one session, each mirroring `let _ = tx.send(..)`:
the join announcement (line 242), the chat relays (line 274), and — when the
teardown guard finds the room (line 289) — the part announcement.  Returns
the final channel and the messages the session attempted, in order. -/
def runSends (c : BChan) (username : String) (chats : List String)
    (partGuard : Bool) : BChan × List String :=
  let c1 := (bsend c (joinAnnounce username)).1
  let acc := chats.foldl
    (fun (a : BChan × List String) t =>
      ((bsend a.1 (chatLine username t)).1, a.2 ++ [chatLine username t]))
    (c1, [joinAnnounce username])
  if partGuard then
    ((bsend acc.1 (partAnnounce username)).1, acc.2 ++ [partAnnounce username])
  else acc

/-! ## Registry lemmas -/

theorem lookupRoom_eq_none_iff (r : Registry) (R : String) :
    lookupRoom r R = none ↔ ∀ p ∈ r.rooms, p.1 ≠ R := by
  simp [lookupRoom, List.find?_eq_none]

theorem lookupRoom_isSome_of_mem (r : Registry) (R : String) (id : Nat)
    (h : (R, id) ∈ r.rooms) : lookupRoom r R ≠ none := by
  intro hnone
  exact (lookupRoom_eq_none_iff r R).1 hnone (R, id) h rfl

theorem lookupRoom_create (r : Registry) (R : String)
    (h : lookupRoom r R = none) :
    lookupRoom ⟨r.rooms ++ [(R, r.nextId)], r.nextId + 1⟩ R = some r.nextId := by
  have hfind : r.rooms.find? (fun p => p.1 = R) = none := by
    unfold lookupRoom at h
    exact Option.map_eq_none'.mp h
  unfold lookupRoom
  rw [List.find?_append, hfind]
  simp [List.find?]

theorem getOrCreate_WF (r : Registry) (R : String) (h : r.WF) :
    ((getOrCreate r R).2).WF := by
  unfold getOrCreate
  rcases hl : lookupRoom r R with _ | id
  · simp only [Registry.WF, List.map_append, List.map_cons, List.map_nil]
    rw [List.nodup_append]
    refine ⟨h, List.nodup_singleton R, ?_⟩
    intro x hx hx'
    simp only [List.mem_singleton] at hx'
    rw [hx'] at hx
    rcases List.mem_map.1 hx with ⟨p, hp, hpx⟩
    exact (lookupRoom_eq_none_iff r R).1 hl p hp hpx
  · exact h

theorem count_le_one_of_nodup_keys (R : String) :
    ∀ l : List (String × Nat), (l.map (·.1)).Nodup →
      (l.filter (fun p => p.1 = R)).length ≤ 1 := by
  intro l
  induction l with
  | nil => simp
  | cons a t ih =>
    intro h
    simp only [List.map_cons, List.nodup_cons] at h
    by_cases ha : a.1 = R
    · have ht : t.filter (fun p => p.1 = R) = [] := by
        rw [List.filter_eq_nil_iff]
        intro p hp
        simp only [decide_eq_true_eq]
        intro hpR
        exact h.1 (ha ▸ hpR ▸ List.mem_map_of_mem (·.1) hp)
      simp [List.filter_cons, ha, ht]
    · simpa [List.filter_cons, ha] using ih h.2

theorem countRoom_le_one (r : Registry) (R : String) (h : r.WF) :
    countRoom r R ≤ 1 :=
  count_le_one_of_nodup_keys R r.rooms h

theorem mem_listRooms_iff_lookup (r : Registry) (R : String) :
    R ∈ listRooms r ↔ lookupRoom r R ≠ none := by
  constructor
  · intro hmem
    rcases List.mem_map.1 hmem with ⟨⟨a, b⟩, hp, hpx⟩
    cases hpx
    exact lookupRoom_isSome_of_mem r a b hp
  · intro hne
    by_contra hmem
    refine hne ((lookupRoom_eq_none_iff r R).2 ?_)
    intro p hp hpR
    exact hmem (hpR ▸ List.mem_map_of_mem (·.1) hp)

theorem listRooms_getOrCreate (r : Registry) (R : String) :
    listRooms (getOrCreate r R).2 =
      if lookupRoom r R = none then listRooms r ++ [R] else listRooms r := by
  unfold getOrCreate listRooms
  rcases hl : lookupRoom r R with _ | id <;> simp [hl]

/-- C1 support: a folded run's room list membership. -/
theorem mem_listRooms_foldl (names : List String) :
    ∀ (r : Registry) (x : String),
      x ∈ listRooms (names.foldl (fun r n => (getOrCreate r n).2) r) ↔
        x ∈ listRooms r ∨ x ∈ names := by
  induction names with
  | nil => simp
  | cons n ns ih =>
    intro r x
    rw [List.foldl_cons, ih]
    rw [listRooms_getOrCreate]
    by_cases hl : lookupRoom r n = none
    · simp only [hl, if_pos, List.mem_append, List.mem_singleton, List.mem_cons]
      tauto
    · simp only [hl, if_neg, List.mem_cons, not_false_eq_true]
      constructor
      · tauto
      · rintro (hx | hx | hx)
        · exact Or.inl hx
        · subst hx
          exact Or.inl ((mem_listRooms_iff_lookup r x).2 hl)
        · exact Or.inr hx

theorem WF_foldl (names : List String) :
    ∀ r : Registry, r.WF →
      ((names.foldl (fun r n => (getOrCreate r n).2) r)).WF := by
  induction names with
  | nil => intro r h; exact h
  | cons n ns ih =>
    intro r h
    exact ih _ (getOrCreate_WF r n h)

/-- **C1.** For every room name `R`, the first `getOrCreate R` call on a
registry not yet containing `R` creates exactly one channel (one entry for
`R`, one fresh channel allocation) and returns its handle; every subsequent
call with the same `R` returns the same handle and leaves the registry
unchanged (idempotence); at most one channel object exists per room name. -/
theorem getOrCreate_once_per_room (r : Registry) (R : String) (hwf : r.WF) :
    (lookupRoom r R = none →
      countRoom (getOrCreate r R).2 R = 1 ∧
      ((getOrCreate r R).2).nextId = r.nextId + 1 ∧
      lookupRoom (getOrCreate r R).2 R = some (getOrCreate r R).1) ∧
    getOrCreate (getOrCreate r R).2 R = ((getOrCreate r R).1, (getOrCreate r R).2) ∧
    countRoom (getOrCreate r R).2 R ≤ 1 := by
  refine ⟨?_, ?_, countRoom_le_one _ R (getOrCreate_WF r R hwf)⟩
  · intro h
    have hfil : r.rooms.filter (fun p => p.1 = R) = [] := by
      rw [List.filter_eq_nil_iff]
      intro p hp
      simpa using (lookupRoom_eq_none_iff r R).1 h p hp
    refine ⟨?_, ?_, ?_⟩
    · simp [getOrCreate, h, countRoom, List.filter_append, hfil]
    · simp [getOrCreate, h]
    · simpa [getOrCreate, h] using lookupRoom_create r R h
  · unfold getOrCreate
    rcases hl : lookupRoom r R with _ | id
    · simp [lookupRoom_create r R hl]
    · simp [hl]

/-- Witness for C1 at the empty registry and room `"general"`. -/
theorem getOrCreate_once_per_room_witness :
    Registry.empty.WF ∧
    lookupRoom Registry.empty "general" = none ∧
    getOrCreate (getOrCreate Registry.empty "general").2 "general" =
      ((getOrCreate Registry.empty "general").1,
       (getOrCreate Registry.empty "general").2) ∧
    countRoom (getOrCreate Registry.empty "general").2 "general" = 1 :=
  ⟨by simp [Registry.WF, Registry.empty],
   rfl,
   (getOrCreate_once_per_room Registry.empty "general"
     (by simp [Registry.WF, Registry.empty])).2.1,
   ((getOrCreate_once_per_room Registry.empty "general"
     (by simp [Registry.WF, Registry.empty])).1 rfl).1⟩

/-- **C9.** After any sequence of `getOrCreate` calls for a list of names
(starting from the empty registry), `listRooms` holds exactly the set of
those names: membership coincides, the list has no duplicates, its length is
`N` when the `N` names are distinct, and any reordering (interleaving) of the
calls yields the same set. -/
theorem listRooms_runGetOrCreate (names : List String) :
    (∀ x, x ∈ listRooms (runGetOrCreate names) ↔ x ∈ names) ∧
    (listRooms (runGetOrCreate names)).Nodup ∧
    (names.Nodup → (listRooms (runGetOrCreate names)).length = names.length) ∧
    (∀ names₂, names₂.Perm names →
      ∀ x, x ∈ listRooms (runGetOrCreate names₂) ↔
        x ∈ listRooms (runGetOrCreate names)) := by
  have hmem : ∀ x, x ∈ listRooms (runGetOrCreate names) ↔ x ∈ names := by
    intro x
    rw [runGetOrCreate, mem_listRooms_foldl]
    simp [listRooms, Registry.empty]
  have hnd : (listRooms (runGetOrCreate names)).Nodup :=
    WF_foldl names Registry.empty (by simp [Registry.WF, Registry.empty])
  refine ⟨hmem, hnd, ?_, ?_⟩
  · intro hN
    have h1 : (listRooms (runGetOrCreate names)).toFinset = names.toFinset := by
      ext x
      simp [List.mem_toFinset, hmem x]
    calc (listRooms (runGetOrCreate names)).length
        = (listRooms (runGetOrCreate names)).toFinset.card :=
          (List.toFinset_card_of_nodup hnd).symm
      _ = names.toFinset.card := by rw [h1]
      _ = names.length := List.toFinset_card_of_nodup hN
  · intro names₂ hperm x
    rw [hmem x]
    have hmem₂ : ∀ y, y ∈ listRooms (runGetOrCreate names₂) ↔ y ∈ names₂ := by
      intro y
      rw [runGetOrCreate, mem_listRooms_foldl]
      simp [listRooms, Registry.empty]
    rw [hmem₂ x]
    exact ⟨fun h => hperm.mem_iff.1 h, fun h => hperm.mem_iff.2 h⟩

/-- Witness for C9 with the two distinct names `"a"`, `"b"`. -/
theorem listRooms_runGetOrCreate_witness :
    (["a", "b"] : List String).Nodup ∧
    (listRooms (runGetOrCreate ["a", "b"])).length = 2 ∧
    ("a" ∈ listRooms (runGetOrCreate ["a", "b"])) :=
  ⟨by decide,
   (listRooms_runGetOrCreate ["a", "b"]).2.2.1 (by decide),
   ((listRooms_runGetOrCreate ["a", "b"]).1 "a").2 (by decide)⟩

/-! ## C2: subscribe-then-announce -/

theorem foldl_send_log (k : Nat) (f : String → String) :
    ∀ (texts : List String) (st : Sys),
      ((texts.foldl (fun st t => st.send k (f t)) st).chanLog k) =
        st.chanLog k ++ texts.map f := by
  intro texts
  induction texts with
  | nil => intro st; simp
  | cons t ts ih =>
    intro st
    rw [List.foldl_cons, ih]
    simp [Sys.send, List.append_assoc]

/-- **C2.** A session subscribes before it announces: its subscriber cursor
equals the index at which its Join announcement lands in the channel log, so
the join is the first message visible at the cursor, and every Chat the
session subsequently sends lands at a strictly larger index — the session
observes its own Join, and observes it before any of its own Chats. -/
theorem subscribe_then_announce (s : Sys) (room username : String)
    (texts : List String) :
    ((texts.foldl
        (fun st t => st.send (sessionStart s room username).2.1 (chatLine username t))
        (sessionStart s room username).1).chanLog
          (sessionStart s room username).2.1)[(sessionStart s room username).2.2]? =
      some (joinAnnounce username) ∧
    (∀ i,
      ((texts.foldl
          (fun st t => st.send (sessionStart s room username).2.1 (chatLine username t))
          (sessionStart s room username).1).chanLog
            (sessionStart s room username).2.1)[(sessionStart s room username).2.2 + 1 + i]? =
        (texts[i]?).map (chatLine username)) := by
  set cid := (sessionStart s room username).2.1 with hcid
  have hstart : (sessionStart s room username).1 =
      Sys.send ⟨(getOrCreate s.registry room).2, s.chanLog⟩ cid (joinAnnounce username) := by
    simp [sessionStart, hcid]
  have hcur : (sessionStart s room username).2.2 = (s.chanLog cid).length := by
    simp [sessionStart, hcid]
  have hlog :
      ((texts.foldl (fun st t => st.send cid (chatLine username t))
          (sessionStart s room username).1).chanLog cid) =
        s.chanLog cid ++ [joinAnnounce username] ++ texts.map (chatLine username) := by
    rw [foldl_send_log cid (chatLine username) texts _, hstart]
    simp [Sys.send]
  constructor
  · rw [hlog, hcur, List.append_assoc]
    rw [List.getElem?_append_right (Nat.le_refl _)]
    simp
  · intro i
    rw [hlog, hcur, List.append_assoc]
    rw [List.getElem?_append_right (by omega)]
    have : (s.chanLog cid).length + 1 + i - (s.chanLog cid).length = 1 + i := by omega
    rw [this, List.singleton_append]
    rcases i with _ | j
    · simp [List.getElem?_map]
    · have h1 : 1 + (j + 1) = j + 2 := by omega
      rw [h1]
      simp [List.getElem?_map]

/-- Witness for C2: a fresh system, room `"general"`, user `"alice"`, one
later chat `"hi"`. -/
theorem subscribe_then_announce_witness :
    ((["hi"].foldl
        (fun st t => st.send (sessionStart Sys.empty "general" "alice").2.1
          (chatLine "alice" t))
        (sessionStart Sys.empty "general" "alice").1).chanLog
          (sessionStart Sys.empty "general" "alice").2.1)[(sessionStart Sys.empty "general" "alice").2.2]? =
      some (joinAnnounce "alice") :=
  (subscribe_then_announce Sys.empty "general" "alice" ["hi"]).1

/-! ## C3: sends performed while the registry lock is held -/

theorem sendsUnderLock_chats_free (username : String) :
    ∀ (l : List String) (rest : List Ev),
      sendsUnderLock (l.map (fun t => Ev.send .chat (chatLine username t)) ++ rest) 0 =
        sendsUnderLock rest 0 := by
  intro l
  induction l with
  | nil => intro rest; simp
  | cons t ts ih =>
    intro rest
    simp only [List.map_cons, List.cons_append]
    rw [sendsUnderLock]
    simp [ih rest]

/-- **C3 counterexample.** The claim "the registry lock is never held while a
send on a room's channel is performed, including the Part announcement at
teardown" is false at the session (room `"general"`, user `"alice"`, no
chats, room still registered): its trace performs the Part send with the lock
held — in `if let Some(tx) = state.chat_rooms.lock().unwrap().get(&room)`
(main.rs line 288) the guard temporary outlives the borrowed `tx` and is
only dropped after `tx.send(part_msg)`. -/
theorem lock_never_held_during_send_cex :
    sendsUnderLock (handleSocketTrace "general" "alice" [] true) 0 ≠ [] ∧
    sendsUnderLock (handleSocketTrace "general" "alice" [] true) 0 =
      [partAnnounce "alice"] := by
  constructor
  · decide
  · decide

/-- **C3 amended.** The lock's critical section at join time is lookup-or-
insert only: the Join announcement and every Chat relay are sent with the
registry lock released.  The one exception is the Part announcement, which
is sent while the registry lock is held (the `MutexGuard` temporary of
main.rs line 288 lives through the `if let` body): the messages sent under
the lock are exactly the Part announcement when the room is still
registered, and none otherwise. -/
theorem sendsUnderLock_acquire (es : List Ev) (d : Nat) :
    sendsUnderLock (Ev.lockAcquire :: es) d = sendsUnderLock es (d + 1) := rfl

theorem sendsUnderLock_release (es : List Ev) (d : Nat) :
    sendsUnderLock (Ev.lockRelease :: es) d = sendsUnderLock es (d - 1) := rfl

theorem sendsUnderLock_send (k : SendKind) (m : String) (es : List Ev) (d : Nat) :
    sendsUnderLock (Ev.send k m :: es) d =
      (if 0 < d then [m] else []) ++ sendsUnderLock es d := rfl

theorem sendsUnderLock_lookupOrInsert (R : String) (es : List Ev) (d : Nat) :
    sendsUnderLock (Ev.lookupOrInsert R :: es) d = sendsUnderLock es d := rfl

theorem sendsUnderLock_subscribe (es : List Ev) (d : Nat) :
    sendsUnderLock (Ev.subscribe :: es) d = sendsUnderLock es d := rfl

theorem sendsUnderLock_pumpsStopped (es : List Ev) (d : Nat) :
    sendsUnderLock (Ev.pumpsStopped :: es) d = sendsUnderLock es d := rfl

theorem sendsUnderLock_lookup (R : String) (es : List Ev) (d : Nat) :
    sendsUnderLock (Ev.lookup R :: es) d = sendsUnderLock es d := rfl

theorem sendsUnderLock_nil (d : Nat) : sendsUnderLock [] d = [] := rfl

theorem sendsUnderLock_spec (room username : String) (chats : List String)
    (roomStillThere : Bool) :
    sendsUnderLock (handleSocketTrace room username chats roomStillThere) 0 =
      if roomStillThere then [partAnnounce username] else [] := by
  unfold handleSocketTrace
  simp only [List.append_assoc, List.cons_append, List.nil_append]
  rw [sendsUnderLock_acquire, sendsUnderLock_lookupOrInsert, sendsUnderLock_release,
    sendsUnderLock_subscribe, sendsUnderLock_send]
  simp only [Nat.add_sub_cancel, Nat.lt_irrefl, if_false, List.nil_append]
  rw [sendsUnderLock_chats_free]
  rw [sendsUnderLock_pumpsStopped, sendsUnderLock_acquire, sendsUnderLock_lookup]
  rcases roomStillThere with _ | _
  · simp only [Bool.false_eq_true, if_false, List.nil_append]
    rw [sendsUnderLock_release, sendsUnderLock_nil]
  · simp only [if_true, List.cons_append, List.nil_append]
    rw [sendsUnderLock_send, sendsUnderLock_release, sendsUnderLock_nil]
    simp

/-! ## C5: the Part announcement -/

theorem isPartSend_join (m : String) : isPartSend (Ev.send .join m) = none := rfl

theorem isPartSend_chat (m : String) : isPartSend (Ev.send .chat m) = none := rfl

theorem isPartSend_part (m : String) : isPartSend (Ev.send .part m) = some m := rfl

theorem isPartSend_lockAcquire : isPartSend Ev.lockAcquire = none := rfl

theorem isPartSend_lockRelease : isPartSend Ev.lockRelease = none := rfl

theorem isPartSend_subscribe : isPartSend Ev.subscribe = none := rfl

theorem isPartSend_pumpsStopped : isPartSend Ev.pumpsStopped = none := rfl

theorem isPartSend_lookupOrInsert (R : String) :
    isPartSend (Ev.lookupOrInsert R) = none := rfl

theorem isPartSend_lookup (R : String) : isPartSend (Ev.lookup R) = none := rfl

theorem filterMap_isPartSend_chats (username : String) (l : List String) :
    (l.map (fun t => Ev.send .chat (chatLine username t))).filterMap isPartSend =
      [] := by
  induction l with
  | nil => rfl
  | cons t ts ih =>
    simp only [List.map_cons, List.filterMap_cons, isPartSend_chat]
    exact ih

theorem notStop_lockAcquire : notStop Ev.lockAcquire = true := rfl

theorem notStop_lockRelease : notStop Ev.lockRelease = true := rfl

theorem notStop_subscribe : notStop Ev.subscribe = true := rfl

theorem notStop_pumpsStopped : notStop Ev.pumpsStopped = false := rfl

theorem notStop_send (k : SendKind) (m : String) :
    notStop (Ev.send k m) = true := rfl

theorem notStop_lookupOrInsert (R : String) :
    notStop (Ev.lookupOrInsert R) = true := rfl

theorem notStop_lookup (R : String) : notStop (Ev.lookup R) = true := rfl

theorem takeWhile_notStop_chats (username : String) (l : List String)
    (rest : List Ev) :
    (l.map (fun t => Ev.send .chat (chatLine username t)) ++ rest).takeWhile
        notStop =
      l.map (fun t => Ev.send .chat (chatLine username t)) ++
        rest.takeWhile notStop := by
  induction l with
  | nil => simp
  | cons t ts ih =>
    simp only [List.map_cons, List.cons_append]
    rw [List.takeWhile_cons_of_pos (notStop_send .chat (chatLine username t)), ih]

/-- **C5.** For every session, the Part announcement is sent at most once
(exactly once when the room is still registered at teardown, never
otherwise), and never before the pumps' join point: the part of the trace
preceding `pumpsStopped` contains no Part send. -/
theorem part_announcement_spec (room username : String) (chats : List String)
    (roomStillThere : Bool) :
    partSends (handleSocketTrace room username chats roomStillThere) =
      (if roomStillThere then [partAnnounce username] else []) ∧
    (partSends (handleSocketTrace room username chats roomStillThere)).length ≤ 1 ∧
    partSends (beforePumpsStop
      (handleSocketTrace room username chats roomStillThere)) = [] := by
  have h1 : partSends (handleSocketTrace room username chats roomStillThere) =
      (if roomStillThere then [partAnnounce username] else []) := by
    unfold handleSocketTrace partSends
    simp only [List.append_assoc, List.cons_append, List.nil_append,
      List.filterMap_cons, List.filterMap_append, isPartSend_lockAcquire,
      isPartSend_lockRelease, isPartSend_subscribe, isPartSend_pumpsStopped,
      isPartSend_lookupOrInsert, isPartSend_lookup, isPartSend_join,
      isPartSend_part, filterMap_isPartSend_chats]
    rcases roomStillThere with _ | _ <;>
      simp [List.filterMap_cons, isPartSend_part]
  refine ⟨h1, ?_, ?_⟩
  · rw [h1]
    rcases roomStillThere with _ | _ <;> simp
  · unfold handleSocketTrace beforePumpsStop
    simp only [List.append_assoc, List.cons_append, List.nil_append]
    rw [List.takeWhile_cons_of_pos notStop_lockAcquire,
      List.takeWhile_cons_of_pos (notStop_lookupOrInsert room),
      List.takeWhile_cons_of_pos notStop_lockRelease,
      List.takeWhile_cons_of_pos notStop_subscribe,
      List.takeWhile_cons_of_pos (notStop_send .join (joinAnnounce username)),
      takeWhile_notStop_chats,
      List.takeWhile_cons_of_neg (by rw [notStop_pumpsStopped]; exact Bool.false_ne_true)]
    unfold partSends
    simp only [List.filterMap_cons, List.filterMap_append, isPartSend_lockAcquire,
      isPartSend_lockRelease, isPartSend_subscribe, isPartSend_lookupOrInsert,
      isPartSend_join, filterMap_isPartSend_chats, List.append_nil]

/-- Witness for C5: a session in room `"general"`, user `"alice"`, one chat,
room still registered: exactly one Part send, none before the pumps stop. -/
theorem part_announcement_spec_witness :
    partSends (handleSocketTrace "general" "alice" ["hi"] true) =
      [partAnnounce "alice"] ∧
    partSends (beforePumpsStop (handleSocketTrace "general" "alice" ["hi"] true)) =
      [] :=
  ⟨(part_announcement_spec "general" "alice" ["hi"] true).1,
   (part_announcement_spec "general" "alice" ["hi"] true).2.2⟩

/-! ## C4: stopping conditions of the outbound pump -/

theorem recvTaskAux_all_ok (msgs : List String) (closed : Bool)
    (writeOk : Nat → Bool) (hw : ∀ i, writeOk i = true) :
    ∀ fuel pos, fuel = msgs.length - pos → fuel ≤ capacity →
      recvTaskAux msgs closed writeOk fuel pos =
        (if closed then .channelClosed else .suspended) := by
  intro fuel
  induction fuel with
  | zero => intro pos _ _; rfl
  | succ n ih =>
    intro pos h hc
    rw [recvTaskAux]
    rw [if_neg (by omega : ¬ capacity < msgs.length - pos), hw pos]
    simp only [if_true]
    exact ih (pos + 1) (by omega) (by omega)

theorem recvTaskAux_not_lagged (msgs : List String) (closed : Bool)
    (writeOk : Nat → Bool) :
    ∀ fuel pos, msgs.length - pos ≤ capacity →
      recvTaskAux msgs closed writeOk fuel pos ≠ .laggedExit := by
  intro fuel
  induction fuel with
  | zero =>
    intro pos _
    rw [recvTaskAux]
    rcases closed with _ | _ <;> simp
  | succ n ih =>
    intro pos h
    rw [recvTaskAux]
    rw [if_neg (by omega : ¬ capacity < msgs.length - pos)]
    rcases hwp : writeOk pos with _ | _
    · simp
    · simp only [if_true]
      exact ih (pos + 1) (by omega)

/-- **C4 counterexample.** The claim "the outbound pump stops only on
transport write failure or when the channel is closed" is false: with 101
messages pending (one more than the capacity 100), no write failure and the
channel open, `rx.recv()` yields `Err(RecvError::Lagged)` and the
`while let Ok(msg)` loop of `recv_task` (main.rs line 250) exits. -/
theorem outbound_pump_stop_cex :
    recvTask (List.replicate (capacity + 1) "m") false (fun _ => true) 0 =
      .laggedExit ∧
    PumpStop.laggedExit ≠ PumpStop.writeFailure ∧
    PumpStop.laggedExit ≠ PumpStop.channelClosed ∧
    PumpStop.laggedExit ≠ PumpStop.suspended := by
  refine ⟨by decide, by decide, by decide, by decide⟩

/-- **C4 amended.** The outbound pump stops on transport write failure, on
channel closure — or when the subscriber has fallen more than the capacity
(100) behind, in which case `recv` reports `Lagged` (the channel drops the
oldest un-consumed messages, never blocking the producer) and the
`while let Ok` loop exits.  Within capacity and with the transport healthy,
the pump forwards everything and stops only when the channel closes; the lag
exit happens exactly when the subscriber is more than `capacity` behind. -/
theorem outbound_pump_stop_spec (msgs : List String) (closed : Bool)
    (writeOk : Nat → Bool) (pos : Nat) :
    (capacity < msgs.length - pos →
      recvTask msgs closed writeOk pos = .laggedExit ∧
      recvOnce msgs closed pos =
        .lagged (msgs.length - capacity - pos) (msgs.length - capacity)) ∧
    ((∀ i, writeOk i = true) → msgs.length - pos ≤ capacity →
      recvTask msgs closed writeOk pos =
        (if closed then .channelClosed else .suspended)) ∧
    (recvTask msgs closed writeOk pos = .laggedExit →
      capacity < msgs.length - pos) := by
  refine ⟨?_, ?_, ?_⟩
  · intro hgap
    have hpos : pos < msgs.length := by omega
    obtain ⟨k, hk⟩ : ∃ k, msgs.length - pos = k + 1 := ⟨msgs.length - pos - 1, by omega⟩
    constructor
    · rw [recvTask, hk, recvTaskAux, if_pos (by omega : capacity < msgs.length - pos)]
    · rw [recvOnce, dif_pos hpos, if_pos hgap]
  · intro hw hgap
    exact recvTaskAux_all_ok msgs closed writeOk hw _ pos rfl (by omega)
  · intro hlag
    by_contra hgap
    exact recvTaskAux_not_lagged msgs closed writeOk _ pos (by omega) hlag

/-- Witness for C4's amended statement: a subscriber 101 behind exits with
the lag error; a drained subscriber of a closed single-message channel stops
with the closed signal. -/
theorem outbound_pump_stop_spec_witness :
    recvTask (List.replicate (capacity + 1) "m") false (fun _ => true) 0 =
      PumpStop.laggedExit ∧
    recvTask ["a"] true (fun _ => true) 0 = PumpStop.channelClosed :=
  ⟨((outbound_pump_stop_spec (List.replicate (capacity + 1) "m") false
      (fun _ => true) 0).1 (by decide)).1,
   by
    have h := (outbound_pump_stop_spec ["a"] true (fun _ => true) 0).2.1
      (fun _ => rfl) (by decide)
    simpa using h⟩

/-! ## C6: failed upgrades have no room side effects -/

/-- **C6.** When the upgrade token is missing, or fails decoding (malformed,
expired or badly signed — `jsonwebtoken::decode` collapses all of these to
`Err(_)`, modelled by `decodeTok` returning `none`), `websocket_handler`
refuses the upgrade with the corresponding unauthorized response and returns
the system state untouched: no channel is created, no subscriber cursor is
taken, and no Join announcement is appended to any channel log
(`handle_socket`, the only producer of those effects, is never entered). -/
theorem unauthorized_no_side_effects (decodeTok : String → Option TokenClaims)
    (params : List (String × String)) (room : String) (s : Sys) :
    (tokenOf params = none →
      wsRequest decodeTok params room s = (.unauthorizedNoToken, s)) ∧
    (∀ t, tokenOf params = some t → decodeTok t = none →
      wsRequest decodeTok params room s = (.unauthorizedInvalid, s)) := by
  constructor
  · intro h
    simp [wsRequest, h]
  · intro t ht hd
    simp [wsRequest, ht, hd]

/-- Witness for C6: a request whose token `"expired"` fails decoding, and a
request with no token at all; both are refused with the state unchanged. -/
theorem unauthorized_no_side_effects_witness :
    wsRequest (fun _ => none) [("token", "expired")] "general" Sys.empty =
      (.unauthorizedInvalid, Sys.empty) ∧
    wsRequest (fun _ => none) [] "general" Sys.empty =
      (.unauthorizedNoToken, Sys.empty) :=
  ⟨(unauthorized_no_side_effects (fun _ => none) [("token", "expired")]
      "general" Sys.empty).2 "expired" (by decide) rfl,
   (unauthorized_no_side_effects (fun _ => none) [] "general" Sys.empty).1 rfl⟩

/-! ## C7: the inbound pump persists once, then broadcasts, for every frame -/

theorem sendTaskEvents_nil (uid : Int) (username room : String)
    (p : PersistRec → Bool) :
    sendTaskEvents uid username room p [] = [] := rfl

theorem sendTaskEvents_cons_text (uid : Int) (username room t : String)
    (p : PersistRec → Bool) (fs : List WsFrame) :
    sendTaskEvents uid username room p (WsFrame.text t :: fs) =
      InEv.persistAttempt ⟨uid, username, room, t⟩ (p ⟨uid, username, room, t⟩) ::
        InEv.broadcastChat (chatLine username t) ::
          sendTaskEvents uid username room p fs := rfl

theorem sendTaskEvents_cons_nonText (uid : Int) (username room : String)
    (p : PersistRec → Bool) (fs : List WsFrame) :
    sendTaskEvents uid username room p (WsFrame.nonText :: fs) =
      sendTaskEvents uid username room p fs := rfl

theorem persistSel_attempt (r : PersistRec) (ok : Bool) :
    persistSel (InEv.persistAttempt r ok) = some r := rfl

theorem persistSel_broadcast (m : String) :
    persistSel (InEv.broadcastChat m) = none := rfl

theorem chatSel_attempt (r : PersistRec) (ok : Bool) :
    chatSel (InEv.persistAttempt r ok) = none := rfl

theorem chatSel_broadcast (m : String) :
    chatSel (InEv.broadcastChat m) = some m := rfl

theorem textSel_text (t : String) : textSel (WsFrame.text t) = some t := rfl

theorem textSel_nonText : textSel WsFrame.nonText = none := rfl

/-- **C7.** For each text frame the inbound pump reads, it attempts exactly
one persistence record `(user id, username, room, text)` and then broadcasts
the corresponding Chat line, in that order (each persist attempt is
immediately followed by its broadcast); non-text frames contribute nothing;
and none of this depends on the persistence outcomes `p` — a failed persist
is discarded (`.ok()`) and neither stops the pump nor suppresses the
broadcast. -/
theorem inbound_pump_spec (uid : Int) (username room : String)
    (p : PersistRec → Bool) (frames : List WsFrame) :
    persistsOf (sendTaskEvents uid username room p frames) =
      (textsOf frames).map (fun t => ⟨uid, username, room, t⟩) ∧
    broadcastsOf (sendTaskEvents uid username room p frames) =
      (textsOf frames).map (chatLine username) ∧
    (∀ i r ok,
      (sendTaskEvents uid username room p frames)[i]? =
          some (InEv.persistAttempt r ok) →
        (sendTaskEvents uid username room p frames)[i + 1]? =
          some (InEv.broadcastChat (chatLine username r.text))) := by
  refine ⟨?_, ?_, ?_⟩
  · induction frames with
    | nil => rfl
    | cons f fs ih =>
      rcases f with t | _
      · rw [sendTaskEvents_cons_text]
        unfold persistsOf textsOf at *
        simp only [List.filterMap_cons, persistSel_attempt, persistSel_broadcast,
          textSel_text, List.map_cons]
        rw [ih]
      · rw [sendTaskEvents_cons_nonText]
        unfold persistsOf textsOf at *
        simp only [List.filterMap_cons, textSel_nonText]
        exact ih
  · induction frames with
    | nil => rfl
    | cons f fs ih =>
      rcases f with t | _
      · rw [sendTaskEvents_cons_text]
        unfold broadcastsOf textsOf at *
        simp only [List.filterMap_cons, chatSel_attempt, chatSel_broadcast,
          textSel_text, List.map_cons]
        rw [ih]
      · rw [sendTaskEvents_cons_nonText]
        unfold broadcastsOf textsOf at *
        simp only [List.filterMap_cons, textSel_nonText]
        exact ih
  · induction frames with
    | nil =>
      intro i r ok h
      rw [sendTaskEvents_nil] at h
      simp at h
    | cons f fs ih =>
      intro i r ok h
      rcases f with t | _
      · rw [sendTaskEvents_cons_text] at h ⊢
        rcases i with _ | i
        · rw [List.getElem?_cons_zero] at h
          have hr : r = ⟨uid, username, room, t⟩ := by
            injection h with h'
            injection h' with h1 h2
            exact h1.symm
          subst hr
          simp
        · rw [List.getElem?_cons_succ] at h
          rcases i with _ | i
          · rw [List.getElem?_cons_zero] at h
            exact absurd h (by simp)
          · rw [List.getElem?_cons_succ] at h
            have := ih i r ok h
            simpa using this
      · rw [sendTaskEvents_cons_nonText] at h ⊢
        exact ih i r ok h

/-- Witness for C7, Scenario C: alice (id 1) sends `"hi"` in `"general"`
with persistence failing: exactly one record is attempted, the broadcast
`"alice: hi"` still follows it. -/
theorem inbound_pump_spec_witness :
    persistsOf (sendTaskEvents 1 "alice" "general" (fun _ => false)
        [WsFrame.text "hi"]) =
      [⟨1, "alice", "general", "hi"⟩] ∧
    (sendTaskEvents 1 "alice" "general" (fun _ => false)
        [WsFrame.text "hi"])[1]? =
      some (InEv.broadcastChat (chatLine "alice" "hi")) :=
  ⟨(inbound_pump_spec 1 "alice" "general" (fun _ => false)
      [WsFrame.text "hi"]).1,
   (inbound_pump_spec 1 "alice" "general" (fun _ => false)
      [WsFrame.text "hi"]).2.2 0 ⟨1, "alice", "general", "hi"⟩ false rfl⟩

/-! ## C8: the three literal wire shapes -/

/-- **C8.** Every message sent on a room's channel during a session has
exactly the literal textual shape of its kind: a Join send carries
`"[<username>] has joined the room."`, a Part send
`"[<username>] has left the room."`, and a Chat send `"<username>: <text>"`
for one of the texts the client sent. -/
theorem wire_shapes (room username : String) (chats : List String) (b : Bool) :
    ∀ k m, Ev.send k m ∈ handleSocketTrace room username chats b →
      (k = SendKind.join ∧ m = "[" ++ username ++ "] has joined the room.") ∨
      (k = SendKind.part ∧ m = "[" ++ username ++ "] has left the room.") ∨
      (k = SendKind.chat ∧ ∃ t ∈ chats, m = username ++ ": " ++ t) := by
  intro k m hmem
  unfold handleSocketTrace at hmem
  simp only [List.append_assoc, List.cons_append, List.nil_append, List.mem_cons,
    List.mem_append, List.mem_map, List.mem_singleton, List.mem_ite_nil_right] at hmem
  rcases hmem with h | h | h | h | h | h | h | h | h | ⟨_, h | h⟩ | h | h
  · exact absurd h (by simp)
  · exact absurd h (by simp)
  · exact absurd h (by simp)
  · exact absurd h (by simp)
  · rw [Ev.send.injEq] at h
    exact Or.inl ⟨h.1, h.2⟩
  · rcases h with ⟨t, ht, hEq⟩
    rw [Ev.send.injEq] at hEq
    exact Or.inr (Or.inr ⟨hEq.1.symm, t, ht, hEq.2.symm⟩)
  · exact absurd h (by simp)
  · exact absurd h (by simp)
  · exact absurd h (by simp)
  · rw [Ev.send.injEq] at h
    exact Or.inr (Or.inl ⟨h.1, h.2⟩)
  · exact absurd h (by simp)
  · exact absurd h (by simp)
  · exact absurd h (by simp)

/-- Witness for C8: in the session (room `"general"`, user `"alice"`, one
chat `"hi"`, room registered) the Join send is classified as the Join
shape. -/
theorem wire_shapes_witness :
    (SendKind.join = SendKind.join ∧
      joinAnnounce "alice" = "[" ++ "alice" ++ "] has joined the room.") ∨
    (SendKind.join = SendKind.part ∧
      joinAnnounce "alice" = "[" ++ "alice" ++ "] has left the room.") ∨
    (SendKind.join = SendKind.chat ∧
      ∃ t ∈ ["hi"], joinAnnounce "alice" = "alice" ++ ": " ++ t) :=
  wire_shapes "general" "alice" ["hi"] true SendKind.join (joinAnnounce "alice")
    (by decide)

/-! ## C10: send results are discarded at all three sites -/

theorem foldl_sends_snd (username : String) :
    ∀ (chats : List String) (c : BChan) (ms : List String),
      ((chats.foldl
        (fun (a : BChan × List String) t =>
          ((bsend a.1 (chatLine username t)).1, a.2 ++ [chatLine username t]))
        (c, ms)).2) = ms ++ chats.map (chatLine username) := by
  intro chats
  induction chats with
  | nil => intro c ms; simp
  | cons t ts ih =>
    intro c ms
    rw [List.foldl_cons, ih]
    simp

theorem foldl_sends_fst_zero (username : String) (l : List String) :
    ∀ (chats : List String) (ms : List String),
      ((chats.foldl
        (fun (a : BChan × List String) t =>
          ((bsend a.1 (chatLine username t)).1, a.2 ++ [chatLine username t]))
              (⟨0, l⟩, ms)).1) = (⟨0, l⟩ : BChan) := by
  intro chats
  induction chats with
  | nil => intro ms; rfl
  | cons t ts ih =>
    intro ms
    rw [List.foldl_cons]
    have hz : (bsend ⟨0, l⟩ (chatLine username t)).1 = (⟨0, l⟩ : BChan) := rfl
    rw [hz]
    exact ih _

/-- **C10.** All three broadcast-send sites discard the send's result
(`let _ = tx.send(..)`): the sequence of messages a session goes on to
attempt is the same for any two channel states — in particular a channel
with zero subscribers, where every send returns `SendError` and the message
is dropped (the channel log stays untouched) — so a failed send never alters
the session's subsequent behaviour. -/
theorem discarded_send_results (c₁ c₂ : BChan) (username : String)
    (chats : List String) (g : Bool) (l : List String) :
    (runSends c₁ username chats g).2 = (runSends c₂ username chats g).2 ∧
    (runSends ⟨0, l⟩ username chats g).1 = (⟨0, l⟩ : BChan) ∧
    (bsend ⟨0, l⟩ (joinAnnounce username)).2 =
      Except.error (joinAnnounce username) := by
  refine ⟨?_, ?_, rfl⟩
  · have key : ∀ c : BChan, (runSends c username chats g).2 =
        ([joinAnnounce username] ++ chats.map (chatLine username)) ++
          (if g then [partAnnounce username] else []) := by
      intro c
      unfold runSends
      rcases g with _ | _
      · simp only [Bool.false_eq_true, if_false, List.append_nil]
        rw [foldl_sends_snd]
      · simp only [if_true]
        rw [foldl_sends_snd]
    rw [key c₁, key c₂]
  · unfold runSends
    have hz : (bsend ⟨0, l⟩ (joinAnnounce username)).1 = (⟨0, l⟩ : BChan) := rfl
    rw [hz]
    rcases g with _ | _
    · simp only [Bool.false_eq_true, if_false]
      rw [foldl_sends_fst_zero]
    · simp only [if_true]
      rw [foldl_sends_fst_zero]
      rfl

end WebChat
